import Mathlib

/-!
Shallow embedding of the analytic curve engine of the math-equation-visualizer
repository (src/utils/math_utils.py, src/modules/linear.py, src/modules/quadratic.py,
src/modules/cubic.py, src/modules/trigonometric.py, src/modules/ellipse.py).

Python floats are modelled as real numbers.  Operations that can raise a Python
exception (plain float division, which raises ZeroDivisionError on a zero
denominator, and the explicit `raise` in `compute_trig`) are modelled in the
`Except String` monad; numpy vector operations (np.sqrt, np.sin, np.cos,
np.linspace), which never raise on real input, are modelled by the total Mathlib
functions.
-/

noncomputable section

open Real

/-- Python float division: raises ZeroDivisionError when the denominator is zero. -/
def fdiv (x y : ℝ) : Except String ℝ :=
  if y = 0 then .error "ZeroDivisionError" else .ok (x / y)

/-- A fallible computation completed without raising. -/
def noExn {α : Type} (e : Except String α) : Prop := ∃ v, e = Except.ok v

/-- A fallible computation raised an exception. -/
def raised {α : Type} (e : Except String α) : Prop := ∃ msg, e = Except.error msg

/-- Python's `sorted` on a list of reals (ascending). -/
def pysorted (l : List ℝ) : List ℝ := l.insertionSort (· ≤ ·)

/-- np.linspace(start, stop, num): num evenly spaced points from start to stop
inclusive; empty for num = 0, the single point start for num = 1. -/
def np_linspace (start stop : ℝ) (num : ℕ) : List ℝ :=
  if num = 0 then []
  else if num = 1 then [start]
  else (List.range num).map (fun i : ℕ => start + (i : ℝ) * ((stop - start) / ((num : ℝ) - 1)))

/-- `safe_linspace` from src/utils/math_utils.py: widens a degenerate or
inverted range before spacing. -/
def safe_linspace (start e : ℝ) (num : ℕ) : List ℝ :=
  if start ≥ e then np_linspace start (start + 1e-6) num
  else np_linspace start e num

/-- `polynomial_derivative` from src/utils/math_utils.py. -/
def polynomial_derivative (coeffs : List ℝ) : List ℝ :=
  let n := coeffs.length
  if n ≤ 1 then [0.0]
  else (List.range (n - 1)).map (fun i : ℕ => coeffs.getD i 0 * ((n - 1 - i : ℕ) : ℝ))

/-- np.roots(p): numpy first strips leading zero coefficients; if at most one
coefficient remains the root list is empty; otherwise the roots are the
eigenvalues of the companion matrix of the trimmed polynomial.  The eigenvalue
computation itself is numerical and is abstracted as the parameter `eig`. -/
def np_roots (eig : List ℝ → List ℂ) (p : List ℝ) : List ℂ :=
  let t := p.dropWhile (fun c => c = 0)
  if t.length ≤ 1 then [] else eig t

/-- `find_real_roots` from src/utils/math_utils.py, parametric in the
eigenvalue backend used by np.roots. -/
def find_real_roots (eig : List ℝ → List ℂ) (coefficients : List ℝ) : List ℝ :=
  pysorted (((np_roots eig coefficients).filter (fun r => |r.im| < 1e-8)).map Complex.re)

/-- `quadratic_discriminant` from src/utils/math_utils.py. -/
def quadratic_discriminant (a b c : ℝ) : ℝ := b ^ 2 - 4 * a * c

/-- Classification tags of the nature strings returned by `quadratic_roots`
(the numeric formatting inside the strings is presentation only). -/
inductive RootNature
  | constant     -- "Constant (no roots)"
  | linear       -- "Linear (one root)"
  | twoDistinct  -- "Two distinct real roots (D=...)"
  | oneRepeated  -- "One repeated real root (D≈0)"
  | complexPair  -- "Two complex roots: ..."
  deriving DecidableEq

/-- `quadratic_roots` from src/utils/math_utils.py. -/
def quadratic_roots (a b c : ℝ) : Except String (RootNature × List ℝ) :=
  if |a| < 1e-12 then
    if |b| < 1e-12 then .ok (.constant, [])
    else do
      let r ← fdiv (-c) b
      return (.linear, [r])
  else
    let D := quadratic_discriminant a b c
    if D > 0 then do
      let r1 ← fdiv (-b + Real.sqrt D) (2 * a)
      let r2 ← fdiv (-b - Real.sqrt D) (2 * a)
      return (.twoDistinct, pysorted [r1, r2])
    else if |D| < 1e-10 then do
      let r ← fdiv (-b) (2 * a)
      return (.oneRepeated, [r])
    else do
      let re ← fdiv (-b) (2 * a)
      let im ← fdiv (Real.sqrt (-D)) (2 * a)
      let _ := (re, im)   -- used only in the formatted nature string
      return (.complexPair, [])

/-- `quadratic_vertex` from src/utils/math_utils.py. -/
def quadratic_vertex (a b c : ℝ) : Except String (ℝ × ℝ) :=
  if |a| < 1e-12 then .ok (0.0, c)
  else do
    let xv ← fdiv (-b) (2 * a)
    return (xv, a * xv ^ 2 + b * xv + c)

/-- `cubic_inflection` from src/modules/cubic.py. -/
def cubic_inflection (a b : ℝ) : Except String (Option ℝ) :=
  if |a| < 1e-12 then .ok none
  else do
    let xi ← fdiv (-b) (3 * a)
    return (some xi)

/-- The property bundle returned by `linear_properties`. -/
structure LinearProps where
  slope : ℝ
  y_intercept : ℝ
  x_intercept : Option ℝ
  parallel_to_x : Bool
  is_vertical : Bool
  deriving DecidableEq

/-- `linear_properties` from src/modules/linear.py. -/
def linear_properties (m c : ℝ) : Except String LinearProps :=
  if |m| < 1e-12 then
    .ok { slope := m, y_intercept := c, x_intercept := none,
          parallel_to_x := true, is_vertical := false }
  else do
    let xi ← fdiv (-c) m
    return { slope := m, y_intercept := c, x_intercept := some xi,
             parallel_to_x := false, is_vertical := false }

/-- `compute_trig` from src/modules/trigonometric.py.  Note that the `B == 0`
branch is tested before the function-tag dispatch. -/
def compute_trig (A B C : ℝ) (func : String) (x : List ℝ) : Except String (List ℝ) :=
  if B = 0 then .ok (x.map (fun _ => 0))
  else if func = "sin" then .ok (x.map (fun t => A * Real.sin (B * t + C)))
  else if func = "cos" then .ok (x.map (fun t => A * Real.cos (B * t + C)))
  else .error ("Unknown trig function: " ++ func)

/-- The property bundle returned by `trig_properties`; `period = none` models
the IEEE value float("inf") returned in the degenerate branch. -/
structure TrigProps where
  amplitude : ℝ
  period : Option ℝ
  frequency : ℝ
  phase_shift : ℝ
  angular_freq : ℝ
  deriving DecidableEq

/-- `trig_properties` from src/modules/trigonometric.py. -/
def trig_properties (A B C : ℝ) : Except String TrigProps :=
  if |B| < 1e-12 then
    .ok { amplitude := |A|, period := none, frequency := 0,
          phase_shift := 0, angular_freq := 0 }
  else do
    let p ← fdiv (2 * π) |B|
    let f ← fdiv |B| (2 * π)
    let ps ← fdiv (-C) B
    return { amplitude := |A|, period := some p, frequency := f,
             phase_shift := ps, angular_freq := B }

/-- The 60 phase offsets swept by `_animated_plot`:
np.linspace(0, 2*np.pi, 60). -/
def phase_sweep : List ℝ := np_linspace 0 (2 * π) 60

/-- The y-values of one animation frame in `_animated_plot`
(src/modules/trigonometric.py): `A * fn(B*x + C + phi)` where `fn` is np.sin
when the tag is "sin" and np.cos otherwise. -/
def anim_frame_y (A B C : ℝ) (func : String) (x : List ℝ) (phi : ℝ) : List ℝ :=
  let fn := if func = "sin" then Real.sin else Real.cos
  x.map (fun t => A * fn (B * t + C + phi))

/-- Which coordinate axis the major axis of an ellipse lies along. -/
inductive Axis
  | xAxis  -- "x-axis"
  | yAxis  -- "y-axis"
  deriving DecidableEq

/-- The geometric property bundle returned by `ellipse_properties` in the
non-degenerate case. -/
structure EllipseGeom where
  semi_major : ℝ
  semi_minor : ℝ
  area : ℝ
  eccentricity : ℝ
  focal_distance : ℝ
  major_axis_length : ℝ
  minor_axis_length : ℝ
  major_axis_along : Axis

/-- Result of `ellipse_properties`: either the error bundle
{"error": "Semi-axes must be non-zero"} or the geometry bundle. -/
inductive EllipseProps
  | err
  | geom (g : EllipseGeom)

/-- `ellipse_properties` from src/modules/ellipse.py. -/
def ellipse_properties (a b : ℝ) : Except String EllipseProps :=
  if |a| < 1e-9 ∨ |b| < 1e-9 then .ok .err
  else do
    let major := max |a| |b|
    let minor := min |a| |b|
    let area := π * |a| * |b|
    let ecc ← if major > 0 then do
        let r ← fdiv minor major
        pure (Real.sqrt (1 - r ^ 2))
      else pure (0 : ℝ)
    let c := Real.sqrt (max (|a| ^ 2 - |b| ^ 2) 0)
    return .geom { semi_major := major, semi_minor := minor, area := area,
                   eccentricity := ecc, focal_distance := c,
                   major_axis_length := 2 * major, minor_axis_length := 2 * minor,
                   major_axis_along := if |a| ≥ |b| then .xAxis else .yAxis }

/-- The focus markers placed by `plot_ellipse` (src/modules/ellipse.py,
lines 88-94): after an error bundle the function returns early with no
markers; otherwise foci are placed only when the focal distance exceeds
1e-6, along the x-axis when `|a| >= |b|` and along the y-axis otherwise. -/
def foci_markers (a b : ℝ) : List (ℝ × ℝ) :=
  match ellipse_properties a b with
  | .ok (.geom g) =>
      if g.focal_distance > 1e-6 then
        if |a| ≥ |b| then [(g.focal_distance, 0), (-g.focal_distance, 0)]
        else [(0, g.focal_distance), (0, -g.focal_distance)]
      else []
  | _ => []

/-! ### Helper lemmas -/

theorem abs_ge_ne_zero {x : ℝ} {t : ℝ} (ht : 0 < t) (h : ¬ |x| < t) : x ≠ 0 := by
  intro h0
  subst h0
  simp at h
  linarith

theorem pysorted_pair (x y : ℝ) : pysorted [x, y] = if x ≤ y then [x, y] else [y, x] := by
  simp [pysorted, List.insertionSort, List.orderedInsert]

theorem np_linspace_length (s e : ℝ) (n : ℕ) : (np_linspace s e n).length = n := by
  unfold np_linspace
  split
  · simp_all
  · split
    · simp_all
    · rw [List.length_map, List.length_range]

theorem np_linspace_getD (s e : ℝ) (n i : ℕ) (h : i < n) :
    (np_linspace s e n).getD i 0 = s + (i : ℝ) * ((e - s) / ((n : ℝ) - 1)) := by
  unfold np_linspace
  split
  · omega
  · split
    · have hi : i = 0 := by omega
      subst hi
      simp
    · rw [List.getD_eq_getElem?_getD, List.getElem?_map, List.getElem?_range h]
      simp

theorem np_linspace_mono (s e : ℝ) (n i : ℕ) (hse : s < e) (h : i + 1 < n) :
    (np_linspace s e n).getD i 0 < (np_linspace s e n).getD (i + 1) 0 := by
  rw [np_linspace_getD s e n i (by omega), np_linspace_getD s e n (i + 1) h]
  have hn : (2 : ℝ) ≤ (n : ℝ) := by exact_mod_cast Nat.le_of_lt_succ (by omega)
  have hd : 0 < (e - s) / ((n : ℝ) - 1) := by
    apply div_pos (by linarith)
    linarith
  push_cast
  nlinarith

theorem quad_root_plus (a b c : ℝ) (ha : a ≠ 0) (hD : 0 ≤ b ^ 2 - 4 * a * c) :
    a * ((-b + Real.sqrt (b ^ 2 - 4 * a * c)) / (2 * a)) ^ 2
      + b * ((-b + Real.sqrt (b ^ 2 - 4 * a * c)) / (2 * a)) + c = 0 := by
  have hs : Real.sqrt (b ^ 2 - 4 * a * c) ^ 2 = b ^ 2 - 4 * a * c := Real.sq_sqrt hD
  field_simp
  nlinarith [hs]

theorem quad_root_minus (a b c : ℝ) (ha : a ≠ 0) (hD : 0 ≤ b ^ 2 - 4 * a * c) :
    a * ((-b - Real.sqrt (b ^ 2 - 4 * a * c)) / (2 * a)) ^ 2
      + b * ((-b - Real.sqrt (b ^ 2 - 4 * a * c)) / (2 * a)) + c = 0 := by
  have hs : Real.sqrt (b ^ 2 - 4 * a * c) ^ 2 = b ^ 2 - 4 * a * c := Real.sq_sqrt hD
  field_simp
  nlinarith [hs]

theorem noExn_linear_properties (m c : ℝ) : noExn (linear_properties m c) := by
  unfold linear_properties noExn
  by_cases h : |m| < 1e-12
  · simp [h]
  · have hm : m ≠ 0 := abs_ge_ne_zero (by norm_num) h
    simp [h, fdiv, hm, Bind.bind, Except.bind, Pure.pure, Except.pure]

theorem noExn_quadratic_roots (a b c : ℝ) : noExn (quadratic_roots a b c) := by
  unfold quadratic_roots noExn
  by_cases ha : |a| < 1e-12
  · by_cases hb : |b| < 1e-12
    · simp [ha, hb]
    · have hbne : b ≠ 0 := abs_ge_ne_zero (by norm_num) hb
      simp [ha, hb, fdiv, hbne, Bind.bind, Except.bind, Pure.pure, Except.pure]
  · have hane : (2 : ℝ) * a ≠ 0 :=
      mul_ne_zero two_ne_zero (abs_ge_ne_zero (by norm_num) ha)
    by_cases hD : quadratic_discriminant a b c > 0
    · simp [ha, hD, fdiv, hane, Bind.bind, Except.bind, Pure.pure, Except.pure]
    · by_cases hD2 : |quadratic_discriminant a b c| < 1e-10
      · simp [ha, hD, hD2, fdiv, hane, Bind.bind, Except.bind, Pure.pure, Except.pure]
      · simp [ha, hD, hD2, fdiv, hane, Bind.bind, Except.bind, Pure.pure, Except.pure]

theorem noExn_quadratic_vertex (a b c : ℝ) : noExn (quadratic_vertex a b c) := by
  unfold quadratic_vertex noExn
  by_cases ha : |a| < 1e-12
  · simp [ha]
  · have hane : (2 : ℝ) * a ≠ 0 :=
      mul_ne_zero two_ne_zero (abs_ge_ne_zero (by norm_num) ha)
    simp [ha, fdiv, hane, Bind.bind, Except.bind, Pure.pure, Except.pure]

theorem noExn_cubic_inflection (a b : ℝ) : noExn (cubic_inflection a b) := by
  unfold cubic_inflection noExn
  by_cases ha : |a| < 1e-12
  · simp [ha]
  · have hane : (3 : ℝ) * a ≠ 0 :=
      mul_ne_zero three_ne_zero (abs_ge_ne_zero (by norm_num) ha)
    simp [ha, fdiv, hane, Bind.bind, Except.bind, Pure.pure, Except.pure]

theorem noExn_trig_properties (A B C : ℝ) : noExn (trig_properties A B C) := by
  unfold trig_properties noExn
  by_cases hB : |B| < 1e-12
  · simp [hB]
  · have hBne : B ≠ 0 := abs_ge_ne_zero (by norm_num) hB
    have hBabs : |B| ≠ 0 := abs_ne_zero.mpr hBne
    have h2pi : (2 : ℝ) * π ≠ 0 := mul_ne_zero two_ne_zero Real.pi_ne_zero
    simp [hB, fdiv, hBne, hBabs, h2pi, Bind.bind, Except.bind, Pure.pure, Except.pure]

theorem noExn_ellipse_properties (a b : ℝ) : noExn (ellipse_properties a b) := by
  unfold ellipse_properties noExn
  by_cases hg : |a| < 1e-9 ∨ |b| < 1e-9
  · simp [hg]
  · push_neg at hg
    have hmaj : (0 : ℝ) < max |a| |b| := by
      have := hg.1
      have h0 : (0 : ℝ) < |a| := by linarith [abs_nonneg a]
      exact lt_max_of_lt_left h0
    have hmajne : max |a| |b| ≠ 0 := ne_of_gt hmaj
    have hcond : ¬ (|a| < 1e-9 ∨ |b| < 1e-9) := by
      push_neg
      exact hg
    simp [hcond, fdiv, hmaj, hmajne, Bind.bind, Except.bind, Pure.pure, Except.pure]

/-! ### Claim theorems -/

/-- C2: for every real parameter combination, each analyzer property function
(`linear_properties`, `quadratic_roots`, `quadratic_vertex`, `cubic_inflection`,
`trig_properties`, `ellipse_properties`) completes without raising an
exception: every degenerate region is caught by a guarded branch producing a
sentinel value rather than an error. -/
theorem engine_no_exceptions (m c₀ a b c A B C ea eb : ℝ) :
    noExn (linear_properties m c₀) ∧
    noExn (quadratic_roots a b c) ∧
    noExn (quadratic_vertex a b c) ∧
    noExn (cubic_inflection a b) ∧
    noExn (trig_properties A B C) ∧
    noExn (ellipse_properties ea eb) :=
  ⟨noExn_linear_properties m c₀, noExn_quadratic_roots a b c,
   noExn_quadratic_vertex a b c, noExn_cubic_inflection a b,
   noExn_trig_properties A B C, noExn_ellipse_properties ea eb⟩

/-- C1 (amended): `quadratic_roots` classifies in priority order: constant when
`|a| < 1e-12` and `|b| < 1e-12`; linear with single root `-c/b` when only
`|a| < 1e-12`; otherwise with `D = b^2 - 4ac`, `D > 0` (not `D > 1e-10`) yields
two distinct real roots of the quadratic in ascending order, `0 >= D > -1e-10`
yields the single repeated root `-b/(2a)`, and `D <= -1e-10` yields an empty
real-root list. -/
theorem quadratic_roots_spec (a b c : ℝ) :
    (|a| < 1e-12 → |b| < 1e-12 → quadratic_roots a b c = .ok (.constant, [])) ∧
    (|a| < 1e-12 → ¬ |b| < 1e-12 → quadratic_roots a b c = .ok (.linear, [-c / b])) ∧
    (¬ |a| < 1e-12 →
      (quadratic_discriminant a b c > 0 →
        ∃ r₁ r₂, r₁ < r₂ ∧ quadratic_roots a b c = .ok (.twoDistinct, [r₁, r₂]) ∧
          a * r₁ ^ 2 + b * r₁ + c = 0 ∧ a * r₂ ^ 2 + b * r₂ + c = 0) ∧
      (¬ quadratic_discriminant a b c > 0 → |quadratic_discriminant a b c| < 1e-10 →
        quadratic_roots a b c = .ok (.oneRepeated, [-b / (2 * a)])) ∧
      (¬ quadratic_discriminant a b c > 0 → ¬ |quadratic_discriminant a b c| < 1e-10 →
        quadratic_roots a b c = .ok (.complexPair, []))) := by
  refine ⟨?_, ?_, ?_⟩
  · intro ha hb
    simp [quadratic_roots, ha, hb]
  · intro ha hb
    have hbne : b ≠ 0 := abs_ge_ne_zero (by norm_num) hb
    simp [quadratic_roots, ha, hb, fdiv, hbne, Bind.bind, Except.bind, Pure.pure, Except.pure]
  · intro ha
    have hane : a ≠ 0 := abs_ge_ne_zero (by norm_num) ha
    have h2a : (2 : ℝ) * a ≠ 0 := mul_ne_zero two_ne_zero hane
    refine ⟨?_, ?_, ?_⟩
    · intro hD
      have hDpos : (0 : ℝ) < b ^ 2 - 4 * a * c := by
        simpa [quadratic_discriminant] using hD
      have hsq : Real.sqrt (b ^ 2 - 4 * a * c) > 0 := Real.sqrt_pos.mpr hDpos
      have heval : quadratic_roots a b c
          = .ok (.twoDistinct, pysorted [(-b + Real.sqrt (b ^ 2 - 4 * a * c)) / (2 * a),
              (-b - Real.sqrt (b ^ 2 - 4 * a * c)) / (2 * a)]) := by
        simp [quadratic_roots, quadratic_discriminant, ha, hDpos, fdiv, h2a,
          Bind.bind, Except.bind, Pure.pure, Except.pure]
      rcases lt_or_gt_of_ne hane with haneg | hapos
      · refine ⟨(-b + Real.sqrt (b ^ 2 - 4 * a * c)) / (2 * a),
          (-b - Real.sqrt (b ^ 2 - 4 * a * c)) / (2 * a), ?_, ?_, ?_, ?_⟩
        · exact div_lt_div_of_neg_of_lt (by linarith) (by linarith)
        · rw [heval, pysorted_pair, if_pos]
          exact le_of_lt (div_lt_div_of_neg_of_lt (by linarith) (by linarith))
        · exact quad_root_plus a b c hane hDpos.le
        · exact quad_root_minus a b c hane hDpos.le
      · refine ⟨(-b - Real.sqrt (b ^ 2 - 4 * a * c)) / (2 * a),
          (-b + Real.sqrt (b ^ 2 - 4 * a * c)) / (2 * a), ?_, ?_, ?_, ?_⟩
        · exact (div_lt_div_iff_of_pos_right (by linarith)).mpr (by linarith)
        · rw [heval, pysorted_pair, if_neg]
          push_neg
          exact (div_lt_div_iff_of_pos_right (by linarith)).mpr (by linarith)
        · exact quad_root_minus a b c hane hDpos.le
        · exact quad_root_plus a b c hane hDpos.le
    · intro hD hD2
      simp [quadratic_roots, ha, hD, hD2, fdiv, h2a, Bind.bind, Except.bind, Pure.pure, Except.pure]
    · intro hD hD2
      simp [quadratic_roots, ha, hD, hD2, fdiv, h2a, Bind.bind, Except.bind, Pure.pure, Except.pure]

/-- Witness for C1 (amended) at the concrete input (1, 0, -4): D = 16 > 0 gives
the two distinct roots -2 and 2 of x^2 - 4. -/
theorem quadratic_roots_spec_witness :
    ∃ r₁ r₂, r₁ < r₂ ∧ quadratic_roots 1 0 (-4) = .ok (.twoDistinct, [r₁, r₂]) ∧
      1 * r₁ ^ 2 + 0 * r₁ + (-4) = 0 ∧ 1 * r₂ ^ 2 + 0 * r₂ + (-4) = 0 :=
  ((quadratic_roots_spec 1 0 (-4)).2.2 (by norm_num)).1
    (by norm_num [quadratic_discriminant])

/-- C1 counterexample: at (a, b, c) = (1, 0, -2.5e-12) the discriminant is
1e-11, so |D| <= 1e-10, yet the code takes the `D > 0` branch and returns two
distinct roots, not the single repeated root [0] the claim requires. -/
theorem quadratic_roots_claim_cex :
    ¬ (|(1 : ℝ)| < 1e-12) ∧
    |quadratic_discriminant 1 0 (-2.5e-12)| ≤ 1e-10 ∧
    quadratic_roots 1 0 (-2.5e-12) ≠ Except.ok (RootNature.oneRepeated, [0]) := by
  have h1 : ¬ (|(1 : ℝ)| < 1e-12) := by norm_num
  have hDval : quadratic_discriminant 1 0 (-2.5e-12) = 1e-11 := by
    norm_num [quadratic_discriminant]
  have h2 : quadratic_discriminant 1 0 (-2.5e-12) > 0 := by
    rw [hDval]
    norm_num
  refine ⟨h1, ?_, ?_⟩
  · rw [hDval, abs_of_nonneg (by norm_num)]
    norm_num
  · simp only [quadratic_roots]
    rw [if_neg h1, if_pos h2]
    norm_num [fdiv, Bind.bind, Except.bind, Pure.pure, Except.pure]
    intro h
    exact RootNature.noConfusion h

/-- C7: `safe_linspace` returns exactly `n` points; on a proper domain they are
evenly spaced over [x_min, x_max]; on a degenerate or inverted domain
(`x_min >= x_max`) it silently substitutes `x_max = x_min + 1e-6` before
spacing, and consecutive points are always strictly increasing. -/
theorem safe_linspace_spec (s e : ℝ) (n : ℕ) :
    (safe_linspace s e n).length = n ∧
    (s < e → ∀ i, i < n →
      (safe_linspace s e n).getD i 0 = s + (i : ℝ) * ((e - s) / ((n : ℝ) - 1))) ∧
    (s ≥ e → safe_linspace s e n = np_linspace s (s + 1e-6) n ∧
      ∀ i, i < n →
        (safe_linspace s e n).getD i 0 = s + (i : ℝ) * (1e-6 / ((n : ℝ) - 1))) ∧
    (∀ i, i + 1 < n →
      (safe_linspace s e n).getD i 0 < (safe_linspace s e n).getD (i + 1) 0) := by
  unfold safe_linspace
  split
  · rename_i hge
    refine ⟨np_linspace_length _ _ _, ?_, ?_, ?_⟩
    · intro hlt
      linarith
    · intro _
      refine ⟨rfl, ?_⟩
      intro i hi
      rw [np_linspace_getD _ _ _ _ hi]
      ring_nf
    · intro i hi
      exact np_linspace_mono _ _ _ _ (by linarith [show (0:ℝ) < 1e-6 by norm_num]) hi
  · rename_i hge
    have hlt : s < e := lt_of_not_ge hge
    refine ⟨np_linspace_length _ _ _, ?_, ?_, ?_⟩
    · intro _ i hi
      exact np_linspace_getD _ _ _ _ hi
    · intro hge2
      linarith
    · intro i hi
      exact np_linspace_mono _ _ _ _ hlt hi

/-- Witness for C7 at the degenerate domain sample(5, 5, 3): three points of a
minimal nonzero-width range starting at 5. -/
theorem safe_linspace_spec_witness :
    (safe_linspace 5 5 3).length = 3 ∧
    safe_linspace 5 5 3 = np_linspace 5 (5 + 1e-6) 3 ∧
    (safe_linspace 5 5 3).getD 0 0 = 5 ∧
    (safe_linspace 5 5 3).getD 0 0 < (safe_linspace 5 5 3).getD 1 0 := by
  refine ⟨(safe_linspace_spec 5 5 3).1,
    ((safe_linspace_spec 5 5 3).2.2.1 (by norm_num)).1, ?_, ?_⟩
  · have h := ((safe_linspace_spec 5 5 3).2.2.1 (by norm_num)).2 0 (by norm_num)
    simpa using h
  · exact (safe_linspace_spec 5 5 3).2.2.2 0 (by norm_num)

/-- C8: `polynomial_derivative` maps a coefficient sequence of length n >= 2 to
the length n-1 sequence with entry i equal to coeffs[i] * (n-1-i), maps any
shorter sequence to [0.0], and applied twice to [1,0,0,0] yields [6,0]. -/
theorem polynomial_derivative_spec (coeffs : List ℝ) :
    (coeffs.length ≤ 1 → polynomial_derivative coeffs = [0]) ∧
    (2 ≤ coeffs.length →
      (polynomial_derivative coeffs).length = coeffs.length - 1 ∧
      ∀ i, i < coeffs.length - 1 →
        (polynomial_derivative coeffs).getD i 0
          = coeffs.getD i 0 * ((coeffs.length - 1 - i : ℕ) : ℝ)) ∧
    polynomial_derivative (polynomial_derivative [1, 0, 0, 0]) = [6, 0] := by
  refine ⟨?_, ?_, ?_⟩
  · intro h
    unfold polynomial_derivative
    simp [h]
    norm_num
  · intro h
    constructor
    · unfold polynomial_derivative
      rw [if_neg (by omega)]
      rw [List.length_map, List.length_range]
    · intro i hi
      unfold polynomial_derivative
      rw [if_neg (by omega)]
      rw [List.getD_eq_getElem?_getD, List.getElem?_map, List.getElem?_range hi]
      simp
  · show polynomial_derivative (polynomial_derivative [1, 0, 0, 0]) = [6, 0]
    simp [polynomial_derivative, List.range_succ]
    norm_num

/-- Witness for C8 at [1,0,0,0] (x^3) and at the constant [5]. -/
theorem polynomial_derivative_spec_witness :
    (polynomial_derivative ([1, 0, 0, 0] : List ℝ)).length = 3 ∧
    (polynomial_derivative ([1, 0, 0, 0] : List ℝ)).getD 0 0 = 3 ∧
    polynomial_derivative ([5] : List ℝ) = [0] := by
  refine ⟨?_, ?_, ?_⟩
  · exact ((polynomial_derivative_spec [1, 0, 0, 0]).2.1 (by norm_num)).1
  · have h := ((polynomial_derivative_spec [1, 0, 0, 0]).2.1 (by norm_num)).2 0 (by norm_num)
    simpa using h
  · exact (polynomial_derivative_spec [5]).1 (by norm_num)

/-- C3 counterexample: with B = 0 and the unrecognized tag "tan",
`compute_trig` returns the zero curve instead of raising — the `B == 0` branch
is tested before the tag dispatch, so an invalid tag does not always raise. -/
theorem compute_trig_claim_cex :
    compute_trig 1 0 0 "tan" [0] = Except.ok [0] ∧
    "tan" ≠ "sin" ∧ "tan" ≠ "cos" := by
  refine ⟨?_, by decide, by decide⟩
  simp [compute_trig]

/-- C3 (amended): `compute_trig` raises an exception if and only if B ≠ 0 and
the tag is neither "sin" nor "cos"; with B = 0 it never raises regardless of
the tag, and with a valid tag it never raises. -/
theorem compute_trig_raises_iff (A B C : ℝ) (func : String) (x : List ℝ) :
    raised (compute_trig A B C func x) ↔ (B ≠ 0 ∧ func ≠ "sin" ∧ func ≠ "cos") := by
  unfold compute_trig raised
  by_cases hB : B = 0
  · simp [hB]
  · by_cases hs : func = "sin"
    · simp [hB, hs]
    · by_cases hc : func = "cos"
      · simp [hB, hs, hc]
      · simp [hB, hs, hc]

/-- C4: with B = 0 exactly, `compute_trig` returns a same-length, identically
zero sequence for every tag, and whenever |B| < 1e-12 `trig_properties`
reports amplitude |A|, infinite period (the `none` sentinel), frequency 0,
phase shift 0 and angular frequency 0. -/
theorem trig_degenerate_spec (A B C : ℝ) (func : String) (x : List ℝ) :
    (B = 0 →
      compute_trig A B C func x = .ok (x.map (fun _ => 0)) ∧
      ∃ ys, compute_trig A B C func x = .ok ys ∧ ys.length = x.length ∧
        ∀ y ∈ ys, y = 0) ∧
    (|B| < 1e-12 →
      trig_properties A B C = .ok (TrigProps.mk (abs A) none 0 0 0)) := by
  constructor
  · intro hB
    refine ⟨by simp [compute_trig, hB], x.map (fun _ => 0), by simp [compute_trig, hB], ?_, ?_⟩
    · simp
    · intro y hy
      simp at hy
      exact hy.2.symm ▸ rfl
  · intro hB
    simp [trig_properties, hB]

/-- Witness for C4 at (A, B, C) = (2, 0, 1), tag "sin", samples [1, 2]. -/
theorem trig_degenerate_spec_witness :
    compute_trig 2 0 1 "sin" [1, 2] = .ok [0, 0] ∧
    trig_properties 2 0 1 = .ok (TrigProps.mk 2 none 0 0 0) := by
  constructor
  · have h := ((trig_degenerate_spec 2 0 1 "sin" [1, 2]).1 rfl).1
    simpa using h
  · have h := (trig_degenerate_spec 2 0 1 "sin" [1, 2]).2 (by norm_num)
    simpa [abs_of_pos] using h

/-- C5 (amended): for B ≠ 0 and a valid tag, the animation sweep has exactly
60 phase offsets evenly spaced over [0, 2π] (offset i equals i·2π/59), and
every frame's y-values equal `compute_trig` evaluated with phase C + φ. -/
theorem anim_frames_match_compute_trig (A B C : ℝ) (func : String) (x : List ℝ)
    (hB : B ≠ 0) (hf : func = "sin" ∨ func = "cos") :
    phase_sweep.length = 60 ∧
    (∀ i, i < 60 → phase_sweep.getD i 0 = (i : ℝ) * (2 * π / 59)) ∧
    (∀ phi, compute_trig A B (C + phi) func x = .ok (anim_frame_y A B C func x phi)) := by
  refine ⟨np_linspace_length _ _ _, ?_, ?_⟩
  · intro i hi
    rw [phase_sweep, np_linspace_getD 0 (2 * π) 60 i hi]
    norm_num
  · intro phi
    rcases hf with hs | hc
    · subst hs
      simp [compute_trig, anim_frame_y, hB, add_assoc]
    · subst hc
      simp [compute_trig, anim_frame_y, hB, add_assoc]

/-- Witness for C5 (amended) at (A, B, C) = (1, 1, 0), tag "sin", sample [0],
frame offset φ = 0. -/
theorem anim_frames_match_compute_trig_witness :
    phase_sweep.length = 60 ∧
    compute_trig 1 1 (0 + 0) "sin" [0] = .ok (anim_frame_y 1 1 0 "sin" [0] 0) := by
  have h := anim_frames_match_compute_trig 1 1 0 "sin" [0] (by norm_num) (Or.inl rfl)
  exact ⟨h.1, h.2.2 0⟩

/-- C5 counterexample: at B = 0 the frame values are NOT those of
`compute_trig` with shifted phase: the swept offset 2π/59 (frame index 1) is a
genuine member of the sweep, the animation computes A·sin(B·x + C + φ) = sin(2π/59) ≠ 0
directly, but `compute_trig` takes its `B == 0` branch and returns 0. -/
theorem anim_frames_claim_cex :
    (2 * π / 59) ∈ phase_sweep ∧
    compute_trig 1 0 (0 + 2 * π / 59) "sin" [0]
      ≠ Except.ok (anim_frame_y 1 0 0 "sin" [0] (2 * π / 59)) := by
  constructor
  · have h1 : phase_sweep.getD 1 0 = (1 : ℝ) * (2 * π / 59) := by
      rw [phase_sweep, np_linspace_getD 0 (2 * π) 60 1 (by norm_num)]
      norm_num
    have hlen : (1 : ℕ) < phase_sweep.length := by
      unfold phase_sweep
      rw [np_linspace_length]
      norm_num
    have := List.getD_eq_getElem phase_sweep 0 hlen
    rw [this] at h1
    rw [show (2 * π / 59) = (1 : ℝ) * (2 * π / 59) by ring, ← h1]
    exact List.getElem_mem hlen
  · have hsin : Real.sin (2 * π / 59) > 0 := by
      apply Real.sin_pos_of_pos_of_lt_pi
      · positivity
      · nlinarith [Real.pi_pos]
    simp [compute_trig, anim_frame_y]
    intro h
    linarith


/-- C6: `find_real_roots` retains from the complex root set returned by
np.roots exactly the roots whose imaginary part has magnitude strictly below
1e-8, and returns their real parts sorted ascending; an all-zero coefficient
sequence yields the empty list (numpy strips leading zeros, leaving no
polynomial).  The statement holds for every eigenvalue backend `eig`. -/
theorem find_real_roots_spec (eig : List ℝ → List ℂ) (coefficients : List ℝ) :
    (find_real_roots eig coefficients).Sorted (· ≤ ·) ∧
    (find_real_roots eig coefficients).Perm
      (((np_roots eig coefficients).filter (fun r => |r.im| < 1e-8)).map Complex.re) ∧
    ((∀ c ∈ coefficients, c = 0) → find_real_roots eig coefficients = []) := by
  refine ⟨?_, ?_, ?_⟩
  · exact List.sorted_insertionSort _ _
  · exact List.perm_insertionSort _ _
  · intro hz
    have hdrop : coefficients.dropWhile (fun c : ℝ => c = 0) = [] := by
      rw [List.dropWhile_eq_nil_iff]
      intro x hx
      simpa using hz x hx
    unfold find_real_roots np_roots
    rw [hdrop]
    simp [pysorted]

/-- Witness for C6: the all-zero sequence [0, 0] yields the empty root list,
for an arbitrary concrete eigenvalue backend. -/
theorem find_real_roots_spec_witness :
    find_real_roots (fun _ => [Complex.I]) [0, 0] = [] :=
  (find_real_roots_spec (fun _ => [Complex.I]) [0, 0]).2.2 (by simp)

/-- Helper: the non-degenerate evaluation of `ellipse_properties`. -/
theorem ellipse_nondegenerate (a b : ℝ) (ha : ¬ |a| < 1e-9) (hb : ¬ |b| < 1e-9) :
    ellipse_properties a b = .ok (.geom
      { semi_major := max |a| |b|, semi_minor := min |a| |b|,
        area := π * |a| * |b|,
        eccentricity := Real.sqrt (1 - (min |a| |b| / max |a| |b|) ^ 2),
        focal_distance := Real.sqrt (max (a ^ 2 - b ^ 2) 0),
        major_axis_length := 2 * max |a| |b|, minor_axis_length := 2 * min |a| |b|,
        major_axis_along := if |a| ≥ |b| then .xAxis else .yAxis }) := by
  have hcond : ¬ (|a| < 1e-9 ∨ |b| < 1e-9) := by
    push_neg
    push_neg at ha hb
    exact ⟨ha, hb⟩
  have hmaj : (0 : ℝ) < max |a| |b| := by
    have h0 : (0 : ℝ) < |a| := by
      push_neg at ha
      linarith
    exact lt_max_of_lt_left h0
  have hmajne : max |a| |b| ≠ 0 := ne_of_gt hmaj
  simp [ellipse_properties, hcond, fdiv, hmaj, hmajne, sq_abs,
    Bind.bind, Except.bind, Pure.pure, Except.pure]

/-- Helper: `ellipse_properties` at the spec's worked example (a, b) = (5, 3). -/
theorem ellipse_props_5_3 :
    ellipse_properties 5 3 = .ok (.geom
      { semi_major := 5, semi_minor := 3, area := 15 * π, eccentricity := 0.8,
        focal_distance := 4, major_axis_length := 10, minor_axis_length := 6,
        major_axis_along := .xAxis }) := by
  have h := ellipse_nondegenerate 5 3 (by norm_num) (by norm_num)
  rw [h]
  have habs5 : |(5 : ℝ)| = 5 := by norm_num
  have habs3 : |(3 : ℝ)| = 3 := by norm_num
  have hecc : Real.sqrt (1 - (min |(5:ℝ)| |(3:ℝ)| / max |(5:ℝ)| |(3:ℝ)|) ^ 2) = 0.8 := by
    rw [habs5, habs3]
    rw [show (1 : ℝ) - (min (5:ℝ) 3 / max (5:ℝ) 3) ^ 2 = (0.8 : ℝ) ^ 2 by norm_num]
    exact Real.sqrt_sq (by norm_num)
  have hfoc : Real.sqrt (max ((5:ℝ) ^ 2 - 3 ^ 2) 0) = 4 := by
    rw [show max ((5:ℝ) ^ 2 - 3 ^ 2) 0 = (4 : ℝ) ^ 2 by norm_num]
    exact Real.sqrt_sq (by norm_num)
  rw [hecc, hfoc, habs5, habs3]
  norm_num
  ring

/-- C9: `ellipse_properties` returns the error bundle when |a| < 1e-9 or
|b| < 1e-9, and otherwise semi_major = max(|a|,|b|), semi_minor = min(|a|,|b|),
area = pi*|a|*|b|, eccentricity = sqrt(1 - (minor/major)^2),
focal_distance = sqrt(max(a^2 - b^2, 0)), axis lengths twice the semi-axes and
the major-axis direction; (5, 3) gives semi_major 5, semi_minor 3, area 15*pi,
eccentricity 0.8, focal_distance 4, major axis along x. -/
theorem ellipse_properties_spec (a b : ℝ) :
    ((|a| < 1e-9 ∨ |b| < 1e-9) → ellipse_properties a b = .ok .err) ∧
    (¬ |a| < 1e-9 → ¬ |b| < 1e-9 → ellipse_properties a b = .ok (.geom
      { semi_major := max |a| |b|, semi_minor := min |a| |b|,
        area := π * |a| * |b|,
        eccentricity := Real.sqrt (1 - (min |a| |b| / max |a| |b|) ^ 2),
        focal_distance := Real.sqrt (max (a ^ 2 - b ^ 2) 0),
        major_axis_length := 2 * max |a| |b|, minor_axis_length := 2 * min |a| |b|,
        major_axis_along := if |a| ≥ |b| then .xAxis else .yAxis })) ∧
    ellipse_properties 5 3 = .ok (.geom
      { semi_major := 5, semi_minor := 3, area := 15 * π, eccentricity := 0.8,
        focal_distance := 4, major_axis_length := 10, minor_axis_length := 6,
        major_axis_along := .xAxis }) := by
  refine ⟨?_, ellipse_nondegenerate a b, ellipse_props_5_3⟩
  intro h
  simp [ellipse_properties, h]

/-- Witness for C9: the degenerate input (0, 1) yields the error bundle, and
the worked example (5, 3) yields the concrete geometry. -/
theorem ellipse_properties_spec_witness :
    ellipse_properties 0 1 = .ok .err ∧
    ellipse_properties 5 3 = .ok (.geom
      { semi_major := max |(5:ℝ)| |(3:ℝ)|, semi_minor := min |(5:ℝ)| |(3:ℝ)|,
        area := π * |(5:ℝ)| * |(3:ℝ)|,
        eccentricity := Real.sqrt (1 - (min |(5:ℝ)| |(3:ℝ)| / max |(5:ℝ)| |(3:ℝ)|) ^ 2),
        focal_distance := Real.sqrt (max ((5:ℝ) ^ 2 - 3 ^ 2) 0),
        major_axis_length := 2 * max |(5:ℝ)| |(3:ℝ)|,
        minor_axis_length := 2 * min |(5:ℝ)| |(3:ℝ)|,
        major_axis_along := if |(5:ℝ)| ≥ |(3:ℝ)| then .xAxis else .yAxis }) :=
  ⟨(ellipse_properties_spec 0 1).1 (Or.inl (by norm_num)),
   (ellipse_properties_spec 5 3).2.1 (by norm_num) (by norm_num)⟩

/-- C10: for every non-degenerate (a, b) with |b| > |a|, `ellipse_properties`
reports the major axis along the y-axis yet focal_distance = 0 (since
max(a^2 - b^2, 0) collapses to 0) even though the eccentricity is positive,
and consequently `plot_ellipse`, which places foci only when
focal_distance > 1e-6, marks no foci. -/
theorem y_major_no_foci (a b : ℝ) (ha : ¬ |a| < 1e-9) (hb : ¬ |b| < 1e-9)
    (hab : |a| < |b|) :
    ∃ g, ellipse_properties a b = .ok (.geom g) ∧
      g.major_axis_along = Axis.yAxis ∧
      g.focal_distance = 0 ∧
      0 < g.eccentricity ∧
      foci_markers a b = [] := by
  have heval := ellipse_nondegenerate a b ha hb
  have ha0 : (0 : ℝ) < |a| := by
    push_neg at ha
    linarith
  have hb0 : (0 : ℝ) < |b| := lt_trans ha0 hab
  have hsq : a ^ 2 < b ^ 2 := by
    rw [← sq_abs a, ← sq_abs b]
    exact pow_lt_pow_left₀ hab (abs_nonneg a) (by norm_num)
  have hfoc : Real.sqrt (max (a ^ 2 - b ^ 2) 0) = 0 := by
    rw [max_eq_right (by linarith)]
    exact Real.sqrt_zero
  have hmm : min |a| |b| / max |a| |b| < 1 := by
    rw [min_eq_left hab.le, max_eq_right hab.le]
    exact (div_lt_one hb0).mpr hab
  have hmm0 : 0 ≤ min |a| |b| / max |a| |b| :=
    div_nonneg (le_min ha0.le hb0.le |>.trans (min_le_min le_rfl le_rfl))
      (le_max_of_le_left ha0.le)
  have hecc : 0 < Real.sqrt (1 - (min |a| |b| / max |a| |b|) ^ 2) := by
    apply Real.sqrt_pos.mpr
    nlinarith
  have haxis : ¬ (|a| ≥ |b|) := not_le.mpr hab
  refine ⟨_, heval, ?_, ?_, ?_, ?_⟩
  · simp [haxis]
  · exact hfoc
  · simpa [hfoc] using hecc
  · unfold foci_markers
    rw [heval]
    simp [hfoc]
    norm_num

/-- Witness for C10 at (a, b) = (3, 5): major axis along y, focal distance 0,
positive eccentricity, no focus markers. -/
theorem y_major_no_foci_witness :
    ∃ g, ellipse_properties 3 5 = .ok (.geom g) ∧
      g.major_axis_along = Axis.yAxis ∧
      g.focal_distance = 0 ∧
      0 < g.eccentricity ∧
      foci_markers 3 5 = [] :=
  y_major_no_foci 3 5 (by norm_num) (by norm_num) (by norm_num)

end
